import Mathlib

/-!
Shallow embedding of `eaglesync/export.go` (package `eaglesync`): the export
scheduler `Export` and the incremental copy engine `copyFile`, over an
explicit model of the destination file store.

Modelling conventions:
* Timestamps are integers counting nanoseconds since the Unix epoch.
  Go compares `time.Time` stat results with `!=`, which on wall-clock
  times from `stat` reduces to nanosecond equality; `time.Time.UnixMilli`
  is floor division of the nanosecond count by `10^6`.
* The destination file store (`afero.Fs`) is an association list from
  paths to files.  `e.fs.OpenFile(dst, os.O_RDWR|os.O_TRUNC|os.O_CREATE, 0655)`
  creates an empty file stamped with the current time when the path is
  absent, and truncates the existing file to length zero when it is
  present; per POSIX (and afero's in-memory store, whose `Truncate` calls
  `setModTime(time.Now())`), the truncation sets the file's modification
  time to the current time, which the model receives as `now`.
* `os.Open`/`times.StatFile` on the source side are modelled by an
  environment-supplied `Option File`: `none` means the open fails.
* `cockroachdb/errors.Wrap(err, msg)` returns `nil` when `err` is `nil`;
  hence the `else` branch of the timestamp comparison in `copyFile`, which
  wraps the `err` left over from the preceding successful `Stat`, returns
  success (`nil`).
* `Chtimes` failure is environment-supplied (`chtimesFails`); the model
  records which error site fired, not the wrapped message text.
* `Stat` on an open in-memory file and `io.Copy` between in-memory files
  do not fail in the model; their error sites are kept in `CopyErr` for
  fidelity but are never produced.
* The worker pool (`conc/pool.New().WithErrors()`, bounded by
  `runtime.NumCPU()`) runs one task per index entry except `"all"` and
  collects every task's error; Go map iteration order is unspecified, so
  the embedding runs the tasks sequentially in index-list order (no claim
  depends on order) and `p.Wait()` returns the join of the collected
  errors, `nil` exactly when the list is empty.
-/

namespace Eaglesync

/-- A regular file: its content (byte list) and its access/modification
timestamps in nanoseconds since the epoch. -/
structure File where
  content : List Nat
  mtimeNs : Int
  atimeNs : Int
  deriving DecidableEq, Repr

/-- `ExportOption` from the source.  The progress bar field is
presentation-only (it only receives byte counts and the total) and is
omitted from the model. -/
structure ExportOption where
  overwrite : Bool
  force : Bool
  groupBySmartFolder : Bool
  deriving DecidableEq, Repr

/-- The error sites of `copyFile`, one per `errors.Wrap` call.  The stat
and stream-copy sites cannot fire in the in-memory model but are kept for
fidelity. -/
inductive CopyErr where
  | openSrcFailed
  | statSrcFailed
  | openDstFailed
  | statDstFailed
  | copyStreamFailed
  | chtimesFailed
  deriving DecidableEq, Repr

/-- Result of one `copyFile` call: the Go return value, the state of the
destination path afterwards, and whether the byte copy (`io.Copy`) ran. -/
structure CopyResult where
  result : Except CopyErr Unit
  dstAfter : Option File
  copied : Bool

/-- Go `time.Time.UnixMilli`: nanoseconds since the epoch reduced to
milliseconds (floor division). -/
def unixMilli (ns : Int) : Int := Int.fdiv ns 1000000

/-- The destination open
`e.fs.OpenFile(dst, os.O_RDWR|os.O_TRUNC|os.O_CREATE, 0655)` (line 137):
creates an empty file when the path is absent and truncates the existing
file to empty when it is present; either way the file's modification time
becomes the current time `now` (POSIX `O_TRUNC`, afero in-memory
`Truncate`). -/
def openDst (dstBefore : Option File) (now : Int) : File :=
  match dstBefore with
  | none => { content := [], mtimeNs := now, atimeNs := now }
  | some d => { d with content := [], mtimeNs := now }

/-- `(*Library).copyFile(src, dst, fileMtime, option)` (lines 123–168).
`srcFile` is the OS filesystem's view of `src` (`none`: `os.Open` fails);
`dstBefore` is the destination store's entry at `dst` before the call;
`now` is the time at which the destination open happens; `chtimesFails`
tells whether the `Chtimes` call fails.  The timestamp comparison (line
148) reads `dstStat` from the file opened at line 137, i.e. after the
create/truncate. -/
def copyFile (srcFile : Option File) (dstBefore : Option File) (fileMtime : Int)
    (option : ExportOption) (now : Int) (chtimesFails : Bool) : CopyResult :=
  match srcFile with
  | none => { result := .error .openSrcFailed, dstAfter := dstBefore, copied := false }
  | some src =>
    let dstOpened := openDst dstBefore now
    if src.mtimeNs ≠ dstOpened.mtimeNs ∨ fileMtime ≠ unixMilli dstOpened.mtimeNs
        ∨ option.overwrite then
      let dstWritten : File := { dstOpened with content := src.content }
      if chtimesFails then
        { result := .error .chtimesFailed, dstAfter := some dstWritten, copied := true }
      else
        { result := .ok (), copied := true,
          dstAfter := some { dstWritten with
            mtimeNs := src.mtimeNs, atimeNs := src.atimeNs } }
    else
      -- `errors.Wrap(err, "stat dst file failed")` with `err == nil` is `nil`.
      { result := .ok (), dstAfter := some dstOpened, copied := false }

/-- Reduction of `copyFile` on a readable source, used by the claim
proofs: the call is the timestamp comparison against the opened
(created/truncated) destination, then either the write path (with the
`Chtimes` outcome) or the skip path. -/
theorem copyFile_some (src : File) (dstBefore : Option File) (fileMtime : Int)
    (option : ExportOption) (now : Int) (cf : Bool) :
    copyFile (some src) dstBefore fileMtime option now cf =
      if src.mtimeNs ≠ (openDst dstBefore now).mtimeNs
          ∨ fileMtime ≠ unixMilli (openDst dstBefore now).mtimeNs
          ∨ option.overwrite then
        if cf then
          { result := .error .chtimesFailed,
            dstAfter := some { openDst dstBefore now with content := src.content },
            copied := true }
        else
          { result := .ok (),
            dstAfter := some { content := src.content, mtimeNs := src.mtimeNs,
                               atimeNs := src.atimeNs },
            copied := true }
      else
        { result := .ok (), dstAfter := some (openDst dstBefore now),
          copied := false } := rfl

/-- C1 — the code violates the claim.  At an input satisfying every
hypothesis of the claim (the destination exists; source filesystem mtime =
destination mtime = 5000000 ns; recorded index time 5 ms = destination
mtime in ms; `Overwrite` false) and with the destination open happening at
the destination's own mtime (so the post-truncation comparison still
matches and the skip branch runs), `copyFile` returns success — but the
destination's content has been truncated from `[1, 2]` to `[]`: the
destination is not left unchanged. -/
theorem c1_up_to_date_destination_truncated :
    (copyFile (some { content := [9], mtimeNs := 5000000, atimeNs := 7 })
        (some { content := [1, 2], mtimeNs := 5000000, atimeNs := 3 }) 5
        { overwrite := false, force := false, groupBySmartFolder := false }
        5000000 false).result = .ok () ∧
    (copyFile (some { content := [9], mtimeNs := 5000000, atimeNs := 7 })
        (some { content := [1, 2], mtimeNs := 5000000, atimeNs := 3 }) 5
        { overwrite := false, force := false, groupBySmartFolder := false }
        5000000 false).dstAfter =
      some { content := [], mtimeNs := 5000000, atimeNs := 3 } ∧
    (copyFile (some { content := [9], mtimeNs := 5000000, atimeNs := 7 })
        (some { content := [1, 2], mtimeNs := 5000000, atimeNs := 3 }) 5
        { overwrite := false, force := false, groupBySmartFolder := false }
        5000000 false).dstAfter ≠
      some { content := [1, 2], mtimeNs := 5000000, atimeNs := 3 } := by
  refine ⟨rfl, rfl, ?_⟩
  decide

/-- C2 — the code violates the claim.  The destination exists, the source
filesystem mtime equals the destination's pre-call mtime (5000000 ns), the
recorded index time (5 ms) equals the destination's pre-call mtime in ms
(`unixMilli 5000000 = 5`), and `Overwrite` is false — every disjunct of the
claim's decision rule is false — yet the byte copy is performed, because
the comparison at line 148 reads the destination's mtime after the
truncating open has set it to the open time (777 ns here). -/
theorem c2_copy_despite_up_to_date :
    unixMilli 5000000 = 5 ∧
    (copyFile (some { content := [9], mtimeNs := 5000000, atimeNs := 7 })
        (some { content := [1, 2], mtimeNs := 5000000, atimeNs := 3 }) 5
        { overwrite := false, force := false, groupBySmartFolder := false }
        777 false).copied = true := by
  exact ⟨rfl, rfl⟩

/-- C3 — confirmed.  The destination is opened with create-and-truncate
flags before the timestamp comparison: the opened file that the decision
reads always exists and has empty content; consequently (a) any `copyFile`
call that returns success leaves the destination existing, and (b) when no
copy is performed the pre-existing destination has been truncated to empty
(with its mtime set to the open time) — for every `Overwrite` value. -/
theorem c3_dst_created_and_truncated_before_decision :
    (∀ (dstBefore : Option File) (now : Int), (openDst dstBefore now).content = []) ∧
    (∀ (src : File) (dstBefore : Option File) (fileMtime : Int)
        (option : ExportOption) (now : Int) (cf : Bool),
      (copyFile (some src) dstBefore fileMtime option now cf).result = .ok () →
      (copyFile (some src) dstBefore fileMtime option now cf).dstAfter.isSome = true) ∧
    (∀ (src d : File) (fileMtime : Int) (option : ExportOption) (now : Int) (cf : Bool),
      (copyFile (some src) (some d) fileMtime option now cf).copied = false →
      (copyFile (some src) (some d) fileMtime option now cf).dstAfter =
        some { d with content := [], mtimeNs := now }) := by
  refine ⟨fun dstBefore now => ?_, fun src dstBefore fileMtime o now cf h => ?_,
    fun src d fileMtime o now cf h => ?_⟩
  · cases dstBefore <;> rfl
  · clear h
    rw [copyFile_some]
    split
    · split <;> rfl
    · rfl
  · rw [copyFile_some] at h ⊢
    split at h
    · split at h <;> exact absurd h (by simp)
    · next hC => rw [if_neg hC]; rfl

/-- Closed witness for C3 at concrete inputs: a fresh destination (absent
before, present and created by the call), and a skip case where the
destination is left truncated. -/
theorem c3_witness :
    (openDst none 0).content = [] ∧
    (copyFile (some { content := [1], mtimeNs := 10, atimeNs := 10 }) none 0
        { overwrite := false, force := false, groupBySmartFolder := false }
        5 false).dstAfter.isSome = true ∧
    (copyFile (some { content := [1], mtimeNs := 10, atimeNs := 10 })
        (some { content := [3], mtimeNs := 10, atimeNs := 2 }) (unixMilli 10)
        { overwrite := false, force := false, groupBySmartFolder := false }
        10 false).dstAfter =
      some { content := [], mtimeNs := 10, atimeNs := 2 } :=
  ⟨c3_dst_created_and_truncated_before_decision.1 none 0,
   c3_dst_created_and_truncated_before_decision.2.1
     { content := [1], mtimeNs := 10, atimeNs := 10 } none 0
     { overwrite := false, force := false, groupBySmartFolder := false } 5 false rfl,
   c3_dst_created_and_truncated_before_decision.2.2
     { content := [1], mtimeNs := 10, atimeNs := 10 }
     { content := [3], mtimeNs := 10, atimeNs := 2 } (unixMilli 10)
     { overwrite := false, force := false, groupBySmartFolder := false } 10 false rfl⟩

/-- C4 — confirmed.  Whenever the byte copy runs and `Chtimes` succeeds,
the call returns success and the destination carries the source's content
and the source's filesystem-reported access and modification times —
independently of the recorded index value `fileMtime`, which is quantified
arbitrarily; and whenever the byte copy runs and `Chtimes` fails, the call
fails with the chtimes error site (the wrap of the underlying cause). -/
theorem c4_times_from_source_chtimes_error :
    ∀ (src : File) (dstBefore : Option File) (fileMtime : Int)
      (option : ExportOption) (now : Int),
      ((copyFile (some src) dstBefore fileMtime option now false).copied = true →
        (copyFile (some src) dstBefore fileMtime option now false).result = .ok () ∧
        (copyFile (some src) dstBefore fileMtime option now false).dstAfter =
          some { content := src.content, mtimeNs := src.mtimeNs,
                 atimeNs := src.atimeNs }) ∧
      ((copyFile (some src) dstBefore fileMtime option now true).copied = true →
        (copyFile (some src) dstBefore fileMtime option now true).result =
          .error .chtimesFailed) := by
  intro src dstBefore fileMtime o now
  constructor
  · intro h
    rw [copyFile_some] at h ⊢
    split at h
    · next hC => rw [if_pos hC]; exact ⟨rfl, rfl⟩
    · exact absurd h (by simp)
  · intro h
    rw [copyFile_some] at h ⊢
    split at h
    · next hC => rw [if_pos hC]; rfl
    · exact absurd h (by simp)

/-- Closed witness for C4: a copy onto an absent destination, with
`Chtimes` succeeding resp. failing. -/
theorem c4_witness :
    ((copyFile (some { content := [4, 5], mtimeNs := 42, atimeNs := 11 }) none 0
        { overwrite := false, force := false, groupBySmartFolder := false }
        9 false).result = .ok () ∧
      (copyFile (some { content := [4, 5], mtimeNs := 42, atimeNs := 11 }) none 0
        { overwrite := false, force := false, groupBySmartFolder := false }
        9 false).dstAfter =
        some { content := [4, 5], mtimeNs := 42, atimeNs := 11 }) ∧
    (copyFile (some { content := [4, 5], mtimeNs := 42, atimeNs := 11 }) none 0
        { overwrite := false, force := false, groupBySmartFolder := false }
        9 true).result = .error .chtimesFailed :=
  ⟨(c4_times_from_source_chtimes_error
      { content := [4, 5], mtimeNs := 42, atimeNs := 11 } none 0
      { overwrite := false, force := false, groupBySmartFolder := false } 9).1 rfl,
   (c4_times_from_source_chtimes_error
      { content := [4, 5], mtimeNs := 42, atimeNs := 11 } none 0
      { overwrite := false, force := false, groupBySmartFolder := false } 9).2 rfl⟩

/-- Modelled from the spec: the per-asset metadata record `FileInfo`
(display name, file extension, deletion flag); its Go declaration lives
outside `export.go`.  Only the fields `Export` reads are modelled. -/
structure FileInfo where
  name : String
  ext : String
  isDeleted : Bool
  deriving DecidableEq, Repr

/-- Modelled from the spec: the modification-time index `Mtime`, a mapping
from asset identifier to an integer millisecond timestamp, plus the
reserved `"all"` total-count entry; represented as an association list
(its Go declaration lives outside `export.go`). -/
abbrev Mtime := List (String × Int)

/-- Modelled from the spec: the library-wide metadata `LibraryInfo`,
represented by the categorisation behaviour of the `FolderFilter` built
from it — a deterministic, side-effect-free evaluation from an asset's
metadata to a category (empty string: no rule matched) or an
`InvalidRule`-style error (its Go declaration lives outside
`export.go`). -/
structure LibraryInfo where
  rules : FileInfo → Except String String

/-- Modelled from the spec: `NewFolderFilter` builds the Category Resolver
from the library metadata; `filter.Evaluate` is exactly the metadata's
rule behaviour. -/
def NewFolderFilter (li : LibraryInfo) : FileInfo → Except String String :=
  li.rules

/-- Error of one scheduled task (the `p.Go` closure's return value). -/
inductive TaskErr where
  | assetMetaUnreadable
  | evalFailed (msg : String)
  | copyFailed (e : CopyErr)
  deriving DecidableEq, Repr

/-- Export-fatal errors: the early `return`s of `Export` before any task
is scheduled. -/
inductive ExportErr where
  | removeFailed
  | mtimeUnreadable
  | metadataUnreadable
  | allMissing
  deriving DecidableEq, Repr

/-- The destination file store (`e.fs`): association list path ↦ file. -/
abbrev DstFs := List (String × File)

/-- Lookup of a path in the destination store. -/
def findFile : DstFs → String → Option File
  | [], _ => none
  | (q, g) :: rest, p => if q = p then some g else findFile rest p

/-- Write a file at a path in the destination store (replace or append). -/
def setFile : DstFs → String → File → DstFs
  | [], p, f => [(p, f)]
  | (q, g) :: rest, p, f =>
    if q = p then (p, f) :: rest else (q, g) :: setFile rest p f

/-- Lookup in the modification-time index (`mtimeMap[name]`). -/
def lookupMtime : Mtime → String → Option Int
  | [], _ => none
  | (k, v) :: rest, s => if k = s then some v else lookupMtime rest s

/-- `e.fs.RemoveAll(outputDir)` on success: every entry at or strictly
under `outputDir` disappears. -/
def removeTree (fs : DstFs) (dir : String) : DstFs :=
  fs.filter fun e => !(e.1 == dir || (dir ++ "/").isPrefixOf e.1)

/-- The outcomes of the external effects one `Export` run observes.
`mtimeDoc`/`libraryDoc`/`assetMeta` are the `parseJsonFile` results
(`none`: the document is missing or malformed); `srcFile` is the OS
filesystem's view of each asset's content file, keyed by asset identifier;
`nowAt` is the time at which the asset's destination open happens;
`chtimesFailsAt` tells whether the asset's `Chtimes` call fails;
`removeAllFails` tells whether `RemoveAll` fails. -/
structure Env where
  removeAllFails : Bool
  mtimeDoc : Option Mtime
  libraryDoc : Option LibraryInfo
  assetMeta : String → Option FileInfo
  srcFile : String → Option File
  nowAt : String → Int
  chtimesFailsAt : String → Bool

/-- `filepath.Join` on already-clean segments. -/
def joinPath (a b : String) : String := a ++ "/" ++ b

/-- Destination path resolution inside the task closure (lines 97–115):
`fileName := fileInfo.Name + "." + fileInfo.Ext`; grouped exports consult
the filter, mapping the empty category to `uncategorized`; flat exports
never consult it. -/
def resolveDst (outputDir : String) (option : ExportOption)
    (filter : FileInfo → Except String String) (fi : FileInfo) :
    Except String String :=
  let fileName := fi.name ++ "." ++ fi.ext
  if option.groupBySmartFolder then
    match filter fi with
    | .error e => .error e
    | .ok category =>
      if category = "" then
        .ok (joinPath (joinPath outputDir "uncategorized") fileName)
      else
        .ok (joinPath (joinPath outputDir category) fileName)
  else
    .ok (joinPath outputDir fileName)

/-- One scheduled task (the body of `p.Go`, lines 84–118): load the
asset's metadata, return success immediately for deleted assets, resolve
the destination path, call `copyFile`.  Returns the task's error (if any)
and the destination store afterwards. -/
def runTask (outputDir : String) (option : ExportOption) (env : Env)
    (filter : FileInfo → Except String String) (fs : DstFs)
    (name : String) (mt : Int) : Option TaskErr × DstFs :=
  match env.assetMeta name with
  | none => (some .assetMetaUnreadable, fs)
  | some fi =>
    if fi.isDeleted then (none, fs)
    else
      match resolveDst outputDir option filter fi with
      | .error e => (some (.evalFailed e), fs)
      | .ok dst =>
        let r := copyFile (env.srcFile name) (findFile fs dst) mt option
          (env.nowAt name) (env.chtimesFailsAt name)
        let fs' := match r.dstAfter with
          | none => fs
          | some f => setFile fs dst f
        (match r.result with
          | .ok _ => none
          | .error e => some (.copyFailed e), fs')

/-- The scheduling loop (lines 75–120): one task per index entry except
`"all"`; every task runs regardless of other tasks' outcomes; errors are
collected with the task's asset identifier.  Returns (collected errors,
identifiers of the tasks that ran, final destination store). -/
def runTasks (outputDir : String) (option : ExportOption) (env : Env)
    (filter : FileInfo → Except String String) :
    Mtime → DstFs → List (String × TaskErr) × List String × DstFs
  | [], fs => ([], [], fs)
  | (name, mt) :: rest, fs =>
    if name = "all" then runTasks outputDir option env filter rest fs
    else
      let t := runTask outputDir option env filter fs name mt
      let r := runTasks outputDir option env filter rest t.2
      ((match t.1 with
        | none => r.1
        | some te => (name, te) :: r.1),
       name :: r.2.1, r.2.2)

/-- The index entries that become tasks: every key except `"all"`. -/
def taskNames : Mtime → List String
  | [] => []
  | (name, _) :: rest =>
    if name = "all" then taskNames rest else name :: taskNames rest

/-- Outcome of an `Export` run.  `result = .ok errs` models the run
reaching `p.Wait()`, whose Go return value is the join of `errs` (`nil`
exactly when `errs = []`); `result = .error e` models an early `return`
before any task is scheduled.  `fs` is the destination store afterwards,
`tasksRun` the identifiers of the tasks that ran. -/
structure ExportResult where
  result : Except ExportErr (List (String × TaskErr))
  fs : DstFs
  tasksRun : List String

/-- `Export` after the force-clean phase (lines 50–120): parse the two
documents, check the `"all"` entry, build the filter, run the tasks. -/
def exportAfterClean (fs1 : DstFs) (outputDir : String)
    (option : ExportOption) (env : Env) : ExportResult :=
  match env.mtimeDoc with
  | none => { result := .error .mtimeUnreadable, fs := fs1, tasksRun := [] }
  | some mtimeMap =>
    match env.libraryDoc with
    | none => { result := .error .metadataUnreadable, fs := fs1, tasksRun := [] }
    | some li =>
      match lookupMtime mtimeMap "all" with
      | none => { result := .error .allMissing, fs := fs1, tasksRun := [] }
      | some _count =>
        let filter := NewFolderFilter li
        let r := runTasks outputDir option env filter mtimeMap fs1
        { result := .ok r.1, fs := r.2.2, tasksRun := r.2.1 }

/-- `(*Library).Export(outputDir, option)` (lines 42–121), over the
destination store `fs0` and the effect outcomes `env`. -/
def Export (fs0 : DstFs) (outputDir : String) (option : ExportOption)
    (env : Env) : ExportResult :=
  if option.force then
    if env.removeAllFails then
      { result := .error .removeFailed, fs := fs0, tasksRun := [] }
    else
      exportAfterClean (removeTree fs0 outputDir) outputDir option env
  else
    exportAfterClean fs0 outputDir option env

/-- `RemoveAll` is idempotent in the model: filtering twice with the same
predicate is filtering once. -/
theorem removeTree_idem (fs : DstFs) (dir : String) :
    removeTree (removeTree fs dir) dir = removeTree fs dir := by
  simp [removeTree, List.filter_filter]

/-- `exportAfterClean` on a load failure (unreadable index, unreadable
library metadata, or missing `"all"` entry): some export-fatal error, the
store untouched, no task run. -/
theorem exportAfterClean_load_failure (fs1 : DstFs) (outputDir : String)
    (option : ExportOption) (env : Env)
    (h : env.mtimeDoc = none ∨ env.libraryDoc = none ∨
      (∃ m, env.mtimeDoc = some m ∧ lookupMtime m "all" = none)) :
    ∃ e, exportAfterClean fs1 outputDir option env =
      { result := .error e, fs := fs1, tasksRun := [] } := by
  unfold exportAfterClean
  rcases h with h | h | ⟨m, hm, hall⟩
  · rw [h]; exact ⟨.mtimeUnreadable, rfl⟩
  · cases hmt : env.mtimeDoc with
    | none => exact ⟨.mtimeUnreadable, rfl⟩
    | some m => rw [h]; exact ⟨.metadataUnreadable, rfl⟩
  · rw [hm]
    cases hl : env.libraryDoc with
    | none => exact ⟨.metadataUnreadable, rfl⟩
    | some li => exact ⟨.allMissing, by simp only [hall]⟩

/-- Every task of the scheduling loop runs: the identifiers of the tasks
that ran are exactly the index keys other than `"all"`, whatever the
individual task outcomes are. -/
theorem runTasks_names (outputDir : String) (option : ExportOption) (env : Env)
    (filter : FileInfo → Except String String) :
    ∀ (m : Mtime) (fs : DstFs),
      (runTasks outputDir option env filter m fs).2.1 = taskNames m := by
  intro m
  induction m with
  | nil => intro fs; rfl
  | cons e rest ih =>
    intro fs
    obtain ⟨name, mt⟩ := e
    by_cases h : name = "all"
    · simp [runTasks, taskNames, h, ih]
    · simp [runTasks, taskNames, h, ih]

/-- Every collected error is attributed to one of the submitted tasks. -/
theorem runTasks_errors_attributed (outputDir : String) (option : ExportOption)
    (env : Env) (filter : FileInfo → Except String String) :
    ∀ (m : Mtime) (fs : DstFs) (x : String × TaskErr),
      x ∈ (runTasks outputDir option env filter m fs).1 → x.1 ∈ taskNames m := by
  intro m
  induction m with
  | nil => intro fs x hx; simp [runTasks] at hx
  | cons e rest ih =>
    intro fs x hx
    obtain ⟨name, mt⟩ := e
    by_cases h : name = "all"
    · simp only [taskNames, if_pos h]
      simp only [runTasks, if_pos h] at hx
      exact ih fs x hx
    · simp only [taskNames, if_neg h]
      simp only [runTasks, if_neg h] at hx
      cases ht : (runTask outputDir option env filter fs name mt).1 with
      | none =>
        rw [ht] at hx
        exact List.mem_cons_of_mem _ (ih _ x hx)
      | some te =>
        rw [ht] at hx
        rcases List.mem_cons.mp hx with rfl | hx
        · exact List.mem_cons_self _ _
        · exact List.mem_cons_of_mem _ (ih _ x hx)

/-- C5 — confirmed.  A task whose asset metadata carries the deletion flag
returns success (no task error) and leaves the destination store
untouched. -/
theorem c5_deleted_asset_skipped :
    ∀ (outputDir : String) (option : ExportOption) (env : Env)
      (filter : FileInfo → Except String String) (fs : DstFs)
      (name : String) (mt : Int) (fi : FileInfo),
      env.assetMeta name = some fi → fi.isDeleted = true →
      runTask outputDir option env filter fs name mt = (none, fs) := by
  intro outputDir opt env filter fs name mt fi hmeta hdel
  simp [runTask, hmeta, hdel]

/-- C6 — confirmed.  Destination path resolution: grouped with a non-empty
category gives `<output>/<category>/<name>.<ext>`; grouped with the empty
category gives `<output>/uncategorized/<name>.<ext>`; ungrouped gives
`<output>/<name>.<ext>`; and ungrouped, the resolver is never consulted —
the whole task is independent of the filter function. -/
theorem c6_destination_paths :
    ∀ (outputDir : String) (option : ExportOption)
      (filter : FileInfo → Except String String) (fi : FileInfo),
      (∀ c, option.groupBySmartFolder = true → filter fi = .ok c → ¬c = "" →
        resolveDst outputDir option filter fi =
          .ok (joinPath (joinPath outputDir c) (fi.name ++ "." ++ fi.ext))) ∧
      (option.groupBySmartFolder = true → filter fi = .ok "" →
        resolveDst outputDir option filter fi =
          .ok (joinPath (joinPath outputDir "uncategorized")
            (fi.name ++ "." ++ fi.ext))) ∧
      (option.groupBySmartFolder = false →
        resolveDst outputDir option filter fi =
          .ok (joinPath outputDir (fi.name ++ "." ++ fi.ext))) ∧
      (option.groupBySmartFolder = false →
        ∀ (env : Env) (fs : DstFs) (name : String) (mt : Int)
          (filter2 : FileInfo → Except String String),
          runTask outputDir option env filter fs name mt =
            runTask outputDir option env filter2 fs name mt) := by
  intro outputDir opt filter fi
  refine ⟨?_, ?_, ?_, ?_⟩
  · intro c hg hf hc
    simp [resolveDst, hg, hf, hc]
  · intro hg hf
    simp [resolveDst, hg, hf]
  · intro hg
    simp [resolveDst, hg]
  · intro hg env fs name mt filter2
    unfold runTask
    cases henv : env.assetMeta name with
    | none => rfl
    | some fi' =>
      have hres : resolveDst outputDir opt filter fi' =
          resolveDst outputDir opt filter2 fi' := by
        simp [resolveDst, hg]
      simp only [hres]

/-- C7 — confirmed.  If the mtime index or the library metadata fails to
parse, or the parsed index lacks the `"all"` entry, `Export` returns an
error with no task scheduled and with the destination store untouched
beyond the force-clean phase. -/
theorem c7_load_failure_aborts_before_tasks :
    ∀ (fs0 : DstFs) (outputDir : String) (option : ExportOption) (env : Env),
      (option.force = true → env.removeAllFails = false) →
      (env.mtimeDoc = none ∨ env.libraryDoc = none ∨
        (∃ m, env.mtimeDoc = some m ∧ lookupMtime m "all" = none)) →
      ∃ e, Export fs0 outputDir option env =
        { result := .error e,
          fs := if option.force then removeTree fs0 outputDir else fs0,
          tasksRun := [] } := by
  intro fs0 outputDir opt env hforce hload
  obtain ⟨e, he⟩ := exportAfterClean_load_failure
    (if opt.force then removeTree fs0 outputDir else fs0) outputDir opt env hload
  refine ⟨e, ?_⟩
  cases hf : opt.force with
  | false =>
    rw [hf] at he
    simp only [Export, hf]
    simpa using he
  | true =>
    rw [hf] at he
    simp only [Export, hf, hforce hf]
    simpa using he

/-- Closed witness for C7: unreadable index document, `Force` off. -/
theorem c7_witness :
    ∃ e, Export [] "out"
        { overwrite := false, force := false, groupBySmartFolder := false }
        { removeAllFails := false, mtimeDoc := none, libraryDoc := none,
          assetMeta := fun _ => none, srcFile := fun _ => none,
          nowAt := fun _ => 0, chtimesFailsAt := fun _ => false } =
      { result := .error e,
        fs := if ExportOption.force
            { overwrite := false, force := false, groupBySmartFolder := false } then
          removeTree [] "out" else [],
        tasksRun := [] } :=
  c7_load_failure_aborts_before_tasks [] "out"
    { overwrite := false, force := false, groupBySmartFolder := false }
    { removeAllFails := false, mtimeDoc := none, libraryDoc := none,
      assetMeta := fun _ => none, srcFile := fun _ => none,
      nowAt := fun _ => 0, chtimesFailsAt := fun _ => false }
    (fun _ => rfl) (Or.inl rfl)

/-- C8 — confirmed.  With `Force` set: if the recursive delete fails,
`Export` aborts at once with the delete error, runs no task and changes
nothing; if it succeeds, the whole run proceeds exactly as a run started
on the already-cleaned destination tree. -/
theorem c8_force_cleans_destination_first :
    ∀ (fs0 : DstFs) (outputDir : String) (option : ExportOption) (env : Env),
      option.force = true →
      (env.removeAllFails = true →
        Export fs0 outputDir option env =
          { result := .error .removeFailed, fs := fs0, tasksRun := [] }) ∧
      (env.removeAllFails = false →
        Export fs0 outputDir option env =
          Export (removeTree fs0 outputDir) outputDir option env) := by
  intro fs0 outputDir opt env hf
  constructor
  · intro hr
    simp [Export, hf, hr]
  · intro hr
    simp [Export, hf, hr, removeTree_idem]

/-- C9 — confirmed.  Once the load phase succeeds, `Export` reaches the
task phase: one task runs per index entry except `"all"` (independently of
any task's failure), the run returns the collected list of task errors,
every collected error is attributed to a submitted task, and the result is
the success value exactly when that list is empty. -/
theorem c9_all_tasks_run_and_errors_collected :
    ∀ (fs0 : DstFs) (outputDir : String) (option : ExportOption) (env : Env)
      (m : Mtime) (li : LibraryInfo) (c : Int),
      (option.force = true → env.removeAllFails = false) →
      env.mtimeDoc = some m → env.libraryDoc = some li →
      lookupMtime m "all" = some c →
      (Export fs0 outputDir option env).tasksRun = taskNames m ∧
      ∃ errs, (Export fs0 outputDir option env).result = .ok errs ∧
        (∀ x ∈ errs, x.1 ∈ taskNames m) ∧
        ((Export fs0 outputDir option env).result =
            .ok ([] : List (String × TaskErr)) ↔ errs = []) := by
  intro fs0 outputDir opt env m li c hforce hm hl hall
  have hexp : Export fs0 outputDir opt env =
      exportAfterClean (if opt.force then removeTree fs0 outputDir else fs0)
        outputDir opt env := by
    cases hf : opt.force with
    | false => simp [Export, hf]
    | true => simp [Export, hf, hforce hf]
  have hac : exportAfterClean (if opt.force then removeTree fs0 outputDir else fs0)
      outputDir opt env =
      { result := .ok (runTasks outputDir opt env (NewFolderFilter li) m
          (if opt.force then removeTree fs0 outputDir else fs0)).1,
        fs := (runTasks outputDir opt env (NewFolderFilter li) m
          (if opt.force then removeTree fs0 outputDir else fs0)).2.2,
        tasksRun := (runTasks outputDir opt env (NewFolderFilter li) m
          (if opt.force then removeTree fs0 outputDir else fs0)).2.1 } := by
    unfold exportAfterClean
    simp only [hm, hl, hall]
  rw [hexp, hac]
  exact ⟨runTasks_names outputDir opt env (NewFolderFilter li) m _,
    (runTasks outputDir opt env (NewFolderFilter li) m _).1, rfl,
    fun x hx => runTasks_errors_attributed outputDir opt env
      (NewFolderFilter li) m _ x hx,
    by simp⟩

/-- C10 — confirmed.  With `Force` set and the delete succeeding, a
subsequent load failure still returns an export-fatal error with no task
scheduled — but the destination tree has already been removed: the aborted
export does not leave the destination unchanged. -/
theorem c10_force_removes_before_load :
    ∀ (fs0 : DstFs) (outputDir : String) (option : ExportOption) (env : Env),
      option.force = true → env.removeAllFails = false →
      (env.mtimeDoc = none ∨ env.libraryDoc = none) →
      ∃ e, Export fs0 outputDir option env =
        { result := .error e, fs := removeTree fs0 outputDir,
          tasksRun := [] } := by
  intro fs0 outputDir opt env hf hr hload
  obtain ⟨e, he⟩ := exportAfterClean_load_failure (removeTree fs0 outputDir)
    outputDir opt env (hload.elim Or.inl (fun h => Or.inr (Or.inl h)))
  refine ⟨e, ?_⟩
  simp only [Export, hf, hr]
  simpa using he

/-- Closed witness for C5: a deleted asset's task on an empty store. -/
theorem c5_witness :
    runTask "out" { overwrite := false, force := false, groupBySmartFolder := false }
      { removeAllFails := false, mtimeDoc := none, libraryDoc := none,
        assetMeta := fun _ => some { name := "x", ext := "jpg", isDeleted := true },
        srcFile := fun _ => none, nowAt := fun _ => 0,
        chtimesFailsAt := fun _ => false }
      (fun _ => .ok "") [] "a" 5 = (none, []) :=
  c5_deleted_asset_skipped "out"
    { overwrite := false, force := false, groupBySmartFolder := false }
    { removeAllFails := false, mtimeDoc := none, libraryDoc := none,
      assetMeta := fun _ => some { name := "x", ext := "jpg", isDeleted := true },
      srcFile := fun _ => none, nowAt := fun _ => 0,
      chtimesFailsAt := fun _ => false }
    (fun _ => .ok "") [] "a" 5 { name := "x", ext := "jpg", isDeleted := true }
    rfl rfl

/-- Closed witness for C6: a categorised asset, an uncategorised asset, a
flat export, and filter-independence of a flat task, at concrete inputs. -/
theorem c6_witness :
    resolveDst "out" { overwrite := false, force := false, groupBySmartFolder := true }
        (fun _ => .ok "cats") { name := "x", ext := "jpg", isDeleted := false } =
      .ok (joinPath (joinPath "out" "cats") ("x" ++ "." ++ "jpg")) ∧
    resolveDst "out" { overwrite := false, force := false, groupBySmartFolder := true }
        (fun _ => .ok "") { name := "x", ext := "jpg", isDeleted := false } =
      .ok (joinPath (joinPath "out" "uncategorized") ("x" ++ "." ++ "jpg")) ∧
    resolveDst "out" { overwrite := false, force := false, groupBySmartFolder := false }
        (fun _ => .ok "cats") { name := "x", ext := "jpg", isDeleted := false } =
      .ok (joinPath "out" ("x" ++ "." ++ "jpg")) ∧
    runTask "out" { overwrite := false, force := false, groupBySmartFolder := false }
        { removeAllFails := false, mtimeDoc := none, libraryDoc := none,
          assetMeta := fun _ => some { name := "x", ext := "jpg", isDeleted := false },
          srcFile := fun _ => none, nowAt := fun _ => 0,
          chtimesFailsAt := fun _ => false }
        (fun _ => .ok "cats") [] "a" 5 =
      runTask "out" { overwrite := false, force := false, groupBySmartFolder := false }
        { removeAllFails := false, mtimeDoc := none, libraryDoc := none,
          assetMeta := fun _ => some { name := "x", ext := "jpg", isDeleted := false },
          srcFile := fun _ => none, nowAt := fun _ => 0,
          chtimesFailsAt := fun _ => false }
        (fun _ => .error "boom") [] "a" 5 :=
  ⟨(c6_destination_paths "out"
      { overwrite := false, force := false, groupBySmartFolder := true }
      (fun _ => .ok "cats") { name := "x", ext := "jpg", isDeleted := false }).1
      "cats" rfl rfl (by decide),
   (c6_destination_paths "out"
      { overwrite := false, force := false, groupBySmartFolder := true }
      (fun _ => .ok "") { name := "x", ext := "jpg", isDeleted := false }).2.1
      rfl rfl,
   (c6_destination_paths "out"
      { overwrite := false, force := false, groupBySmartFolder := false }
      (fun _ => .ok "cats") { name := "x", ext := "jpg", isDeleted := false }).2.2.1
      rfl,
   (c6_destination_paths "out"
      { overwrite := false, force := false, groupBySmartFolder := false }
      (fun _ => .ok "cats") { name := "x", ext := "jpg", isDeleted := false }).2.2.2
      rfl
      { removeAllFails := false, mtimeDoc := none, libraryDoc := none,
        assetMeta := fun _ => some { name := "x", ext := "jpg", isDeleted := false },
        srcFile := fun _ => none, nowAt := fun _ => 0,
        chtimesFailsAt := fun _ => false }
      [] "a" 5 (fun _ => .error "boom")⟩

/-- Closed witness for C8: a failing delete aborts with nothing changed; a
succeeding delete makes the run equal to a run on the cleaned tree. -/
theorem c8_witness :
    Export [("out/x.jpg", { content := [1], mtimeNs := 0, atimeNs := 0 })] "out"
        { overwrite := false, force := true, groupBySmartFolder := false }
        { removeAllFails := true, mtimeDoc := none, libraryDoc := none,
          assetMeta := fun _ => none, srcFile := fun _ => none,
          nowAt := fun _ => 0, chtimesFailsAt := fun _ => false } =
      { result := .error .removeFailed,
        fs := [("out/x.jpg", { content := [1], mtimeNs := 0, atimeNs := 0 })],
        tasksRun := [] } ∧
    Export [("out/x.jpg", { content := [1], mtimeNs := 0, atimeNs := 0 })] "out"
        { overwrite := false, force := true, groupBySmartFolder := false }
        { removeAllFails := false, mtimeDoc := none, libraryDoc := none,
          assetMeta := fun _ => none, srcFile := fun _ => none,
          nowAt := fun _ => 0, chtimesFailsAt := fun _ => false } =
      Export (removeTree
          [("out/x.jpg", { content := [1], mtimeNs := 0, atimeNs := 0 })] "out")
        "out" { overwrite := false, force := true, groupBySmartFolder := false }
        { removeAllFails := false, mtimeDoc := none, libraryDoc := none,
          assetMeta := fun _ => none, srcFile := fun _ => none,
          nowAt := fun _ => 0, chtimesFailsAt := fun _ => false } :=
  ⟨(c8_force_cleans_destination_first
      [("out/x.jpg", { content := [1], mtimeNs := 0, atimeNs := 0 })] "out"
      { overwrite := false, force := true, groupBySmartFolder := false }
      { removeAllFails := true, mtimeDoc := none, libraryDoc := none,
        assetMeta := fun _ => none, srcFile := fun _ => none,
        nowAt := fun _ => 0, chtimesFailsAt := fun _ => false } rfl).1 rfl,
   (c8_force_cleans_destination_first
      [("out/x.jpg", { content := [1], mtimeNs := 0, atimeNs := 0 })] "out"
      { overwrite := false, force := true, groupBySmartFolder := false }
      { removeAllFails := false, mtimeDoc := none, libraryDoc := none,
        assetMeta := fun _ => none, srcFile := fun _ => none,
        nowAt := fun _ => 0, chtimesFailsAt := fun _ => false } rfl).2 rfl⟩

/-- Closed witness for C9: an index with two real entries, one task failing
(unreadable asset metadata) and one succeeding; both run and the failure
is collected. -/
theorem c9_witness :
    (Export [] "out" { overwrite := false, force := false, groupBySmartFolder := false }
        { removeAllFails := false,
          mtimeDoc := some [("all", 2), ("a", 5), ("b", 7)],
          libraryDoc := some { rules := fun _ => .ok "" },
          assetMeta := fun n => if n = "a" then none
            else some { name := "x", ext := "jpg", isDeleted := false },
          srcFile := fun _ => some { content := [1, 2, 3], mtimeNs := 42, atimeNs := 11 },
          nowAt := fun _ => 0,
          chtimesFailsAt := fun _ => false }).tasksRun =
      taskNames [("all", 2), ("a", 5), ("b", 7)] ∧
    ∃ errs, (Export [] "out"
        { overwrite := false, force := false, groupBySmartFolder := false }
        { removeAllFails := false,
          mtimeDoc := some [("all", 2), ("a", 5), ("b", 7)],
          libraryDoc := some { rules := fun _ => .ok "" },
          assetMeta := fun n => if n = "a" then none
            else some { name := "x", ext := "jpg", isDeleted := false },
          srcFile := fun _ => some { content := [1, 2, 3], mtimeNs := 42, atimeNs := 11 },
          nowAt := fun _ => 0,
          chtimesFailsAt := fun _ => false }).result = .ok errs ∧
      (∀ x ∈ errs, x.1 ∈ taskNames [("all", 2), ("a", 5), ("b", 7)]) ∧
      ((Export [] "out"
          { overwrite := false, force := false, groupBySmartFolder := false }
          { removeAllFails := false,
            mtimeDoc := some [("all", 2), ("a", 5), ("b", 7)],
            libraryDoc := some { rules := fun _ => .ok "" },
            assetMeta := fun n => if n = "a" then none
              else some { name := "x", ext := "jpg", isDeleted := false },
            srcFile := fun _ => some { content := [1, 2, 3], mtimeNs := 42, atimeNs := 11 },
            nowAt := fun _ => 0,
            chtimesFailsAt := fun _ => false }).result =
          .ok ([] : List (String × TaskErr)) ↔ errs = []) :=
  c9_all_tasks_run_and_errors_collected [] "out"
    { overwrite := false, force := false, groupBySmartFolder := false }
    { removeAllFails := false,
      mtimeDoc := some [("all", 2), ("a", 5), ("b", 7)],
      libraryDoc := some { rules := fun _ => .ok "" },
      assetMeta := fun n => if n = "a" then none
        else some { name := "x", ext := "jpg", isDeleted := false },
      srcFile := fun _ => some { content := [1, 2, 3], mtimeNs := 42, atimeNs := 11 },
      nowAt := fun _ => 0,
      chtimesFailsAt := fun _ => false }
    [("all", 2), ("a", 5), ("b", 7)] { rules := fun _ => .ok "" } 2
    (fun _ => rfl) rfl rfl rfl

/-- Closed witness for C10: `Force` deletes `out/x.jpg`, then the index
parse fails; the error is returned but the tree is gone. -/
theorem c10_witness :
    ∃ e, Export [("out/x.jpg", { content := [1], mtimeNs := 0, atimeNs := 0 })] "out"
        { overwrite := false, force := true, groupBySmartFolder := false }
        { removeAllFails := false, mtimeDoc := none, libraryDoc := none,
          assetMeta := fun _ => none, srcFile := fun _ => none,
          nowAt := fun _ => 0, chtimesFailsAt := fun _ => false } =
      { result := .error e,
        fs := removeTree
          [("out/x.jpg", { content := [1], mtimeNs := 0, atimeNs := 0 })] "out",
        tasksRun := [] } :=
  c10_force_removes_before_load
    [("out/x.jpg", { content := [1], mtimeNs := 0, atimeNs := 0 })] "out"
    { overwrite := false, force := true, groupBySmartFolder := false }
    { removeAllFails := false, mtimeDoc := none, libraryDoc := none,
      assetMeta := fun _ => none, srcFile := fun _ => none,
      nowAt := fun _ => 0, chtimesFailsAt := fun _ => false }
    rfl rfl (Or.inl rfl)

end Eaglesync
